import Mathlib

/-
Verification of the horizon-scan article pipeline against its specification.

The development shallowly embeds the persistent store (SQLite tables) as lists
of row records and the pipeline stages as pure state transformers on that
store.  External collaborators (the JS JSON parser, the HTML/CSS engine, the
HTTP client, the LLM provider and the mail sender) are abstracted as function
parameters, exactly at the boundary the source code calls them.
-/

namespace HorizonScan

/-- JSON values as stored in the metadata and tags JSON columns and as produced
by parsing JSON-LD script blocks.  Numbers are modelled as integers; no
verified property depends on fractional numeric values. -/
inductive Json where
  | null : Json
  | bool (b : Bool) : Json
  | num (n : Int) : Json
  | str (s : String) : Json
  | arr (elems : List Json) : Json
  | obj (fields : List (String × Json)) : Json

/-- True exactly for JSON objects. -/
def Json.isObj : Json → Bool
  | .obj _ => true
  | _ => false

/-- True exactly for JSON arrays. -/
def Json.isArr : Json → Bool
  | .arr _ => true
  | _ => false

/-- One row of the articles table (db/schema.ts).  The created_at column is
omitted: it is assigned by the database default and never read by any of the
modelled pipeline code.  Timestamps are unix epoch numbers. -/
structure ArticleRow where
  id : Nat
  feedId : Nat
  guid : String
  title : Option String
  url : String
  publishedAt : Option Int
  rawHtml : Option String
  extractedText : Option String
  metadata : Option (List (String × Json))
  status : String
  fetchRetryCount : Nat
  assessmentRetryCount : Nat
  fetchedAt : Option Int

/-- Extractor configuration stored per feed (db/schema.ts ExtractorConfig).
The metadataSelectors object is modelled as an ordered association list, the
iteration order of Object.entries. -/
structure ExtractorConfig where
  bodySelector : String
  jsonLd : Bool
  metadataSelectors : Option (List (String × String))

/-- One row of the feeds table.  poll_interval_minutes, last_polled_at and
created_at are omitted: they are not read by the modelled pipeline code. -/
structure FeedRow where
  id : Nat
  name : String
  url : String
  extractorConfig : ExtractorConfig
  enabled : Bool

/-- One row of the topics table (created_at omitted, never read). -/
structure TopicRow where
  id : Nat
  name : String
  description : String
  enabled : Bool

/-- One row of the assessments table. -/
structure AssessmentRow where
  id : Nat
  articleId : Nat
  topicId : Nat
  relevant : Bool
  summary : Option String
  tags : List String
  modelUsed : String
  provider : String
  assessedAt : Int

/-- One row of the digests table. -/
structure DigestRow where
  id : Nat
  sentAt : Int
  articleCount : Nat
  recipient : String
  status : String

/-- The persistent store: the five tables plus the autoincrement counters of
the tables the pipeline inserts into. -/
structure DB where
  feeds : List FeedRow
  articles : List ArticleRow
  topics : List TopicRow
  assessments : List AssessmentRow
  digests : List DigestRow
  nextArticleId : Nat
  nextAssessmentId : Nat
  nextDigestId : Nat

/-- The slice of the application configuration read by the modelled code. -/
structure AppConfig where
  maxArticleLength : Nat
  llmModel : String
  llmProvider : String
  digestRecipient : String

-- ======================================================================
-- Poller item normalization (pipeline/poller.ts, pollFeed lines 51 to 66)
-- ======================================================================

/-- A raw feed item as delivered by the rss-parser collaborator: every field
may be absent.  Only the fields read by pollFeed are modelled. -/
structure RawRssItem where
  guid : Option String
  link : Option String
  title : Option String
  pubDate : Option Int
  prnIndustry : Option String
  prnSubject : Option String
  dcContributor : Option String

/-- A normalized feed item (pipeline/types.ts ParsedRssItem). -/
structure ParsedRssItem where
  guid : String
  title : Option String
  url : String
  publishedAt : Option Int
  metadata : List (String × Json)

/-- JS truthiness test used by pollFeed on the optional custom metadata
fields: present and not the empty string. -/
def truthyField (key : String) (v : Option String) : List (String × Json) :=
  match v with
  | some s => if s = "" then [] else [(key, Json.str s)]
  | none => []

/-- Embeds the item mapping inside pollFeed (pipeline/poller.ts lines 51 to
66): guid falls back from the item id to the link to the empty string via
nullish coalescing, the url falls back to the empty string, and each custom
field is added to the metadata bag only when truthy. -/
def normalizeItem (it : RawRssItem) : ParsedRssItem :=
  { guid := it.guid.getD (it.link.getD "")
    title := it.title
    url := it.link.getD ""
    publishedAt := it.pubDate
    metadata :=
      truthyField "prnIndustry" it.prnIndustry ++
      truthyField "prnSubject" it.prnSubject ++
      truthyField "dcContributor" it.dcContributor }

-- ======================================================================
-- Deduplicator (pipeline/dedup.ts)
-- ======================================================================

/-- The existence check of dedup.ts lines 18 to 22: is any article row stored
with this guid. -/
def guidExists (db : DB) (g : String) : Bool :=
  db.articles.any (fun a => a.guid == g)

/-- The insert of dedup.ts lines 29 to 39: a fresh article row with status
pending_assessment and the column defaults (zero retry counters, null html,
null extracted text). -/
def insertNewArticle (db : DB) (feedId : Nat) (item : ParsedRssItem) : DB :=
  { db with
    articles := db.articles ++ [{
      id := db.nextArticleId
      feedId := feedId
      guid := item.guid
      title := item.title
      url := item.url
      publishedAt := item.publishedAt
      rawHtml := none
      extractedText := none
      metadata := some item.metadata
      status := "pending_assessment"
      fetchRetryCount := 0
      assessmentRetryCount := 0
      fetchedAt := none }]
    nextArticleId := db.nextArticleId + 1 }

/-- The result value returned by deduplicateAndStore (feedName omitted, it is
threaded through unchanged). -/
structure DedupResult where
  newCount : Nat
  skippedCount : Nat

/-- One iteration of the loop in deduplicateAndStore. -/
def dedupStep (feedId : Nat) (acc : DB × DedupResult) (item : ParsedRssItem) :
    DB × DedupResult :=
  if guidExists acc.1 item.guid then
    (acc.1, { acc.2 with skippedCount := acc.2.skippedCount + 1 })
  else
    (insertNewArticle acc.1 feedId item,
     { acc.2 with newCount := acc.2.newCount + 1 })

/-- Embeds deduplicateAndStore (pipeline/dedup.ts lines 7 to 46): fold the
per-item check-then-insert over the batch, counting new and skipped items. -/
def deduplicateAndStore (db : DB) (feedId : Nat) (items : List ParsedRssItem) :
    DB × DedupResult :=
  items.foldl (dedupStep feedId) (db, { newCount := 0, skippedCount := 0 })

/-- Number of stored article rows carrying a given guid. -/
def guidCount (db : DB) (g : String) : Nat :=
  (db.articles.filter (fun a => a.guid == g)).length

-- Concrete data for the C3 witness.

/-- A store holding one article with guid a1, used as concrete witness
input. -/
def dedupWitnessDb : DB :=
  { feeds := []
    articles := [{
      id := 1
      feedId := 1
      guid := "a1"
      title := none
      url := "https://example.com/a1"
      publishedAt := none
      rawHtml := none
      extractedText := none
      metadata := none
      status := "pending_assessment"
      fetchRetryCount := 0
      assessmentRetryCount := 0
      fetchedAt := none }]
    topics := []
    assessments := []
    digests := []
    nextArticleId := 2
    nextAssessmentId := 1
    nextDigestId := 1 }

/-- A two-item batch: one item whose guid is already stored, one fresh. -/
def dedupWitnessItems : List ParsedRssItem :=
  [{ guid := "a1", title := none, url := "u1", publishedAt := none,
     metadata := [] },
   { guid := "a1", title := some "again", url := "u1b", publishedAt := none,
     metadata := [] }]

-- ======================================================================
-- Shared machinery for row updates keyed by the primary key
-- ======================================================================

/-- SQL UPDATE ... WHERE id = i: rewrite every row whose id matches. -/
def updateArticles (l : List ArticleRow) (i : Nat) (f : ArticleRow → ArticleRow) :
    List ArticleRow :=
  l.map (fun r => if r.id == i then f r else r)

/-- Look an article row up by id. -/
def findArticle (db : DB) (i : Nat) : Option ArticleRow :=
  db.articles.find? (fun r => r.id == i)

-- ======================================================================
-- Fetcher (pipeline/fetcher.ts)
-- ======================================================================

/-- The selection of fetchPendingArticles (fetcher.ts lines 59 to 74):
status pending_assessment, no raw HTML yet, fewer than MAX_RETRIES = 3
fetch attempts. -/
def fetchSelection (db : DB) : List ArticleRow :=
  db.articles.filter (fun a =>
    a.status == "pending_assessment" && a.rawHtml.isNone &&
      decide (a.fetchRetryCount < 3))

/-- The per-article outcome handling of fetcher.ts lines 100 to 119.  The
fetch collaborator is abstracted to its observable result: some body on a 2xx
response, none on a non-2xx response or a network or timeout error (both
branches of fetchArticle return the same shape of failure).  On success the
row gets the body and a fetched-at stamp; on failure the snapshot retry
counter is incremented and the status becomes failed once it reaches
MAX_RETRIES = 3, otherwise stays pending_assessment. -/
def applyFetchOutcome (db : DB) (a : ArticleRow) (res : Option String)
    (now : Int) : DB :=
  match res with
  | some html =>
      let upd := fun (r : ArticleRow) =>
        { r with rawHtml := some html, fetchedAt := some now }
      { db with articles := updateArticles db.articles a.id upd }
  | none =>
      let newRetryCount := a.fetchRetryCount + 1
      let upd := fun (r : ArticleRow) =>
        { r with
          fetchRetryCount := newRetryCount
          status := if 3 ≤ newRetryCount then "failed"
                    else "pending_assessment" }
      { db with articles := updateArticles db.articles a.id upd }

/-- Embeds fetchPendingArticles (fetcher.ts lines 54 to 125).  The worker
pool and the per-host delay only schedule the tasks in time; each task reads
its own snapshot row and writes only its own row, so the batch of row
transitions is modelled as a fold over the selection. -/
def fetchPendingArticles (db : DB) (fetchResult : String → Option String)
    (now : Int) : DB :=
  (fetchSelection db).foldl
    (fun d a => applyFetchOutcome d a (fetchResult a.url) now) db

/-- Concrete article for the C4 witness: pending, with two failed fetch
attempts already recorded. -/
def fetchWitnessArticle : ArticleRow :=
  { id := 7
    feedId := 1
    guid := "g7"
    title := none
    url := "https://example.com/x"
    publishedAt := none
    rawHtml := none
    extractedText := none
    metadata := none
    status := "pending_assessment"
    fetchRetryCount := 2
    assessmentRetryCount := 0
    fetchedAt := none }

/-- Concrete store for the C4 witness. -/
def fetchWitnessDb : DB :=
  { feeds := []
    articles := [fetchWitnessArticle]
    topics := []
    assessments := []
    digests := []
    nextArticleId := 8
    nextAssessmentId := 1
    nextDigestId := 1 }

-- ======================================================================
-- Digest builder (digest/builder.ts, buildDigest)
-- ======================================================================

/-- The last-successful-digest lookup of buildDigest: the greatest sentAt
among digest rows with status success (orderBy desc, limit 1), falling back
to the epoch start when no success row exists. -/
def lastSuccessTime (db : DB) : Int :=
  match (db.digests.filter (fun d => d.status == "success")).map
      (fun d => d.sentAt) with
  | [] => 0
  | t :: ts => ts.foldl max t

/-- An article entry of the digest (digest/builder.ts DigestArticle). -/
structure DigestArticle where
  title : Option String
  url : String
  publishedAt : Option Int
  summary : Option String
  tags : List String

/-- The joined row select of buildDigest: every assessment with relevant true
and assessedAt strictly greater than the window start, inner-joined to its
article and topic rows by primary key (an assessment without a join partner
contributes no row). -/
def digestRows (db : DB) : List (String × DigestArticle) :=
  let sinceDate := lastSuccessTime db
  db.assessments.filterMap (fun a =>
    if a.relevant && decide (sinceDate < a.assessedAt) then
      match db.articles.find? (fun ar => ar.id == a.articleId),
            db.topics.find? (fun t => t.id == a.topicId) with
      | some ar, some t =>
          some (t.name,
            { title := ar.title, url := ar.url, publishedAt := ar.publishedAt,
              summary := a.summary, tags := a.tags })
      | _, _ => none
    else none)

/-- One step of the grouping loop: a JS Map keyed by topic name, appending to
the existing group or adding a new group at the end (insertion order). -/
def pushGroup (groups : List (String × List DigestArticle)) (name : String)
    (art : DigestArticle) : List (String × List DigestArticle) :=
  if groups.any (fun g => g.1 == name) then
    groups.map (fun g => if g.1 == name then (g.1, g.2 ++ [art]) else g)
  else groups ++ [(name, [art])]

/-- The grouping loop of buildDigest lines 77 to 89. -/
def groupByTopic (rows : List (String × DigestArticle)) :
    List (String × List DigestArticle) :=
  rows.foldl (fun gs r => pushGroup gs r.1 r.2) []

/-- A topic group of the digest (digest/builder.ts DigestTopicGroup). -/
structure DigestTopicGroup where
  topicName : String
  articles : List DigestArticle

/-- The digest data returned by buildDigest. -/
structure DigestData where
  topicGroups : List DigestTopicGroup
  totalArticleCount : Nat

/-- Embeds buildDigest (digest/builder.ts lines 43 to 99). -/
def buildDigest (db : DB) : DigestData :=
  { topicGroups := (groupByTopic (digestRows db)).map
      (fun g => { topicName := g.1, articles := g.2 })
    totalArticleCount := (digestRows db).length }

-- Concrete scenario for the C2 windowing claim, generic in the digest time T.

/-- The article assessed before the last digest. -/
def digestOldArticle : ArticleRow :=
  { id := 1, feedId := 1, guid := "old", title := some "Old", url := "https://example.com/old",
    publishedAt := none, rawHtml := none, extractedText := some "o",
    metadata := none, status := "assessed", fetchRetryCount := 0,
    assessmentRetryCount := 0, fetchedAt := none }

/-- The article assessed after the last digest. -/
def digestNewArticle : ArticleRow :=
  { id := 2, feedId := 1, guid := "new", title := some "New", url := "https://example.com/new",
    publishedAt := none, rawHtml := none, extractedText := some "n",
    metadata := none, status := "assessed", fetchRetryCount := 0,
    assessmentRetryCount := 0, fetchedAt := none }

/-- A store with one successful digest at time T and relevant assessments at
T - 1 and T + 1. -/
def digestScenarioDb (T : Int) : DB :=
  { feeds := []
    articles := [digestOldArticle, digestNewArticle]
    topics := [{ id := 1, name := "ai", description := "d", enabled := true }]
    assessments :=
      [{ id := 1, articleId := 1, topicId := 1, relevant := true,
         summary := some "s1", tags := [], modelUsed := "m", provider := "p",
         assessedAt := T - 1 },
       { id := 2, articleId := 2, topicId := 1, relevant := true,
         summary := some "s2", tags := [], modelUsed := "m", provider := "p",
         assessedAt := T + 1 }]
    digests := [{ id := 1, sentAt := T, articleCount := 3, recipient := "r",
                  status := "success" }]
    nextArticleId := 3
    nextAssessmentId := 3
    nextDigestId := 2 }

-- ======================================================================
-- Digest orchestrator (digest/orchestrator.ts, runDigestCycle)
-- ======================================================================

/-- Append one digest record with a fresh id (the insert of
orchestrator.ts). -/
def insertDigestRecord (db : DB) (now : Int) (count : Nat)
    (recipient status : String) : DB :=
  { db with
    digests := db.digests ++ [{
      id := db.nextDigestId, sentAt := now, articleCount := count,
      recipient := recipient, status := status }]
    nextDigestId := db.nextDigestId + 1 }

/-- Embeds runDigestCycle (digest/orchestrator.ts lines 10 to 61).  The
renderer and the subject line only shape the email handed to the send
collaborator, which by contract never throws, so it is abstracted to its
boolean outcome.  The second component counts invocations of the send
collaborator: the empty branch returns before invoking it, the other branch
invokes it exactly once. -/
def runDigestCycle (db : DB) (config : AppConfig) (sendSucceeds : Bool)
    (now : Int) : DB × Nat :=
  let digestData := buildDigest db
  if digestData.totalArticleCount = 0 then
    (insertDigestRecord db now 0 config.digestRecipient "success", 0)
  else
    (insertDigestRecord db now digestData.totalArticleCount
      config.digestRecipient (if sendSucceeds then "success" else "failed"),
     1)

/-- An entirely empty store: the builder reports zero articles. -/
def emptyDb : DB :=
  { feeds := [], articles := [], topics := [], assessments := [],
    digests := [], nextArticleId := 1, nextAssessmentId := 1,
    nextDigestId := 1 }

/-- The configuration used by the C5 witness. -/
def digestWitnessConfig : AppConfig :=
  { maxArticleLength := 8000, llmModel := "m", llmProvider := "p",
    digestRecipient := "who@example.com" }

-- ======================================================================
-- Extractor (pipeline/extractor.ts, extractContent)
-- ======================================================================

/-- Abstract view of a loaded HTML document, the cheerio collaborator at the
exact query surface extractContent uses: the trimmed-later text of every
element matched by a selector, the html() content of every
script[type=application/ld+json] element in document order (null when the
element has no content), and the concatenated text of a metadata selector. -/
structure HtmlDoc where
  bodyMatches : String → List String
  ldScripts : List (Option String)
  selectorText : String → String

/-- The result of extractContent (pipeline/extractor.ts ExtractionResult). -/
structure ExtractionResult where
  extractedText : String
  jsonLdData : List Json

/-- The guard of extractor.ts line 42: typeof parsed is object and parsed is
not null.  In JS, arrays as well as plain objects have typeof object; null is
excluded explicitly. -/
def isJsObject : Json → Bool
  | .obj _ => true
  | .arr _ => true
  | _ => false

/-- One script block of the JSON-LD loop (extractor.ts lines 37 to 50): skip
a null or empty block (JS truthiness), parse with the JSON.parse collaborator
(none models a thrown parse error, caught and skipped), keep the value only
when it passes the typeof-object guard. -/
def parseLdScript (jsonParse : String → Option Json) (raw : Option String) :
    Option Json :=
  match raw with
  | some s =>
      if s = "" then none
      else
        match jsonParse s with
        | some parsed => if isJsObject parsed then some parsed else none
        | none => none
  | none => none

/-- One configured metadata selector (extractor.ts lines 54 to 61): extract
trimmed text, and when non-empty append a tagged object.  A key literally
named _source collapses with the tag key, later field winning, as in a JS
object literal with a duplicate computed key. -/
def metaEntry (doc : HtmlDoc) (kv : String × String) : Option Json :=
  let value := (doc.selectorText kv.2).trim
  if value = "" then none
  else if kv.1 = "_source" then some (Json.obj [("_source", Json.str value)])
  else some (Json.obj
    [("_source", Json.str "metadataSelector"), (kv.1, Json.str value)])

/-- Embeds extractContent (pipeline/extractor.ts lines 18 to 65): body text
is the trimmed text of every body-selector match, empty matches dropped,
joined with a blank line; JSON-LD blocks are parsed only when the flag is
set; metadata-selector entries are appended to the same list. -/
def extractContent (doc : HtmlDoc) (config : ExtractorConfig)
    (jsonParse : String → Option Json) : ExtractionResult :=
  { extractedText := String.intercalate "\n\n"
      (((doc.bodyMatches config.bodySelector).map String.trim).filter
        (fun t => decide (0 < t.length)))
    jsonLdData :=
      (if config.jsonLd then
        doc.ldScripts.filterMap (parseLdScript jsonParse)
      else []) ++
      (config.metadataSelectors.getD []).filterMap (metaEntry doc) }

/-- Counterexample input for claim C8: a document whose only JSON-LD block is
the text of a JSON array. -/
def arrayLdDoc : HtmlDoc :=
  { bodyMatches := fun _ => []
    ldScripts := [some "[1]"]
    selectorText := fun _ => "" }

/-- Models the JSON.parse collaborator on the inputs the counterexample
exercises: the text of the one-element array parses to that array, as
JSON.parse does. -/
def arrayJsonParse : String → Option Json :=
  fun s => if s = "[1]" then some (Json.arr [Json.num 1]) else none

/-- Extractor configuration with structured data enabled. -/
def arrayLdConfig : ExtractorConfig :=
  { bodySelector := "b", jsonLd := true, metadataSelectors := none }

/-- The text of the JSON object block used by the C8 witness (braces and
quotes written as escapes). -/
def objBlockText : String := "\x7b\x22a\x22:1\x7d"

/-- A document with one object block and one malformed block, for the C8
witness. -/
def mixedLdDoc : HtmlDoc :=
  { bodyMatches := fun _ => []
    ldScripts := [some objBlockText, some "not json"]
    selectorText := fun _ => "" }

/-- Models JSON.parse on the witness inputs: the object text parses to the
corresponding object, everything else throws. -/
def mixedJsonParse : String → Option Json :=
  fun s =>
    if s = objBlockText then some (Json.obj [("a", Json.num 1)]) else none

-- ======================================================================
-- Extraction orchestration (pipeline/extract-articles.ts)
-- ======================================================================

/-- Key lookup in a metadata bag (JS property read). -/
def getKey (m : List (String × Json)) (k : String) : Option Json :=
  (m.find? (fun p => p.1 == k)).map (fun p => p.2)

/-- The JS object spread of extract-articles.ts lines 62 to 65: every key of
the existing bag is kept in place, with the value at the spread key replaced
when that key is already present and appended otherwise. -/
def setKey (m : List (String × Json)) (k : String) (v : Json) :
    List (String × Json) :=
  if m.any (fun p => p.1 == k) then
    m.map (fun p => if p.1 == k then (k, v) else p)
  else m ++ [(k, v)]

/-- The selection of extractPendingArticles (extract-articles.ts lines 18 to
33): raw HTML present, no extracted text yet, status pending_assessment. -/
def extractSelection (db : DB) : List ArticleRow :=
  db.articles.filter (fun a =>
    a.rawHtml.isSome && a.extractedText.isNone &&
      a.status == "pending_assessment")

/-- One iteration of the loop in extractPendingArticles (lines 40 to 86):
look the feed up (skipping the article when it is missing), run the
Extractor on the raw HTML through the cheerio collaborator, merge the
structured data into the existing metadata bag under the jsonLd key via
object spread, and persist extracted text plus merged metadata. -/
def extractArticleStep (loadHtml : String → HtmlDoc)
    (jsonParse : String → Option Json) (db : DB) (row : ArticleRow) : DB :=
  match db.feeds.find? (fun f => f.id == row.feedId) with
  | none => db
  | some feed =>
      let result := extractContent (loadHtml (row.rawHtml.getD ""))
        feed.extractorConfig jsonParse
      let existingMetadata := row.metadata.getD []
      let mergedMetadata :=
        setKey existingMetadata "jsonLd" (Json.arr result.jsonLdData)
      let upd := fun (r : ArticleRow) =>
        { r with
          extractedText := some result.extractedText
          metadata := some mergedMetadata }
      { db with articles := updateArticles db.articles row.id upd }

/-- Embeds extractPendingArticles (extract-articles.ts lines 14 to 89) as a
fold of the per-article step over the selection snapshot. -/
def extractPendingArticles (db : DB) (loadHtml : String → HtmlDoc)
    (jsonParse : String → Option Json) : DB :=
  (extractSelection db).foldl (extractArticleStep loadHtml jsonParse) db

/-- The feed row used by the C7 counterexample and witness stores. -/
def extractTestFeed : FeedRow :=
  { id := 1
    name := "f"
    url := "https://example.com/feed"
    extractorConfig :=
      { bodySelector := "p", jsonLd := false, metadataSelectors := none }
    enabled := true }

/-- Concrete store for the C7 counterexample: the stored metadata bag of the
pending article already carries a value at the key jsonLd. -/
def overwriteDb : DB :=
  { feeds := [extractTestFeed]
    articles := [{
      id := 1
      feedId := 1
      guid := "g1"
      title := none
      url := "https://example.com/a"
      publishedAt := none
      rawHtml := some "<p>b</p>"
      extractedText := none
      metadata := some [("jsonLd", Json.str "x")]
      status := "pending_assessment"
      fetchRetryCount := 0
      assessmentRetryCount := 0
      fetchedAt := none }]
    topics := []
    assessments := []
    digests := []
    nextArticleId := 2
    nextAssessmentId := 1
    nextDigestId := 1 }

/-- The cheerio collaborator used by the C7 counterexample and witness: no
selector matches anything. -/
def emptyLoadHtml : String → HtmlDoc :=
  fun _ =>
    { bodyMatches := fun _ => []
      ldScripts := []
      selectorText := fun _ => "" }

/-- Concrete article for the C7 witness: pending, extracted never, with an
RSS metadata bag. -/
def extractWitnessArticle : ArticleRow :=
  { id := 4
    feedId := 1
    guid := "g4"
    title := none
    url := "https://example.com/a4"
    publishedAt := none
    rawHtml := some "<p>b</p>"
    extractedText := none
    metadata := some [("prnIndustry", Json.str "Tech")]
    status := "pending_assessment"
    fetchRetryCount := 0
    assessmentRetryCount := 0
    fetchedAt := none }

/-- Concrete store for the C7 witness. -/
def extractWitnessDb : DB :=
  { feeds := [extractTestFeed]
    articles := [extractWitnessArticle]
    topics := []
    assessments := []
    digests := []
    nextArticleId := 5
    nextAssessmentId := 1
    nextDigestId := 1 }

-- ======================================================================
-- Assessor (pipeline/assessor.ts)
-- ======================================================================

/-- The structured verdict the LLM collaborator returns
(pipeline/assessment-schema.ts AssessmentOutput). -/
structure AssessmentOutput where
  relevant : Bool
  summary : String
  tags : List String

/-- The selection of assessPendingArticles (assessor.ts lines 64 to 79):
extracted text present, status pending_assessment, fewer than 3 assessment
attempts. -/
def assessSelection (db : DB) : List ArticleRow :=
  db.articles.filter (fun a =>
    a.extractedText.isSome && a.status == "pending_assessment" &&
      decide (a.assessmentRetryCount < 3))

/-- The enabled topics loaded by assessor.ts lines 86 to 94. -/
def activeTopics (db : DB) : List TopicRow :=
  db.topics.filter (fun t => t.enabled)

/-- The existence check of assessor.ts lines 107 to 116: is an assessment
row stored for this (article, topic) pair. -/
def pairExists (db : DB) (articleId topicId : Nat) : Bool :=
  db.assessments.any (fun s =>
    s.articleId == articleId && s.topicId == topicId)

/-- The insert of assessor.ts lines 139 to 150. -/
def insertAssessment (db : DB) (articleId topicId : Nat)
    (result : AssessmentOutput) (config : AppConfig) (now : Int) : DB :=
  { db with
    assessments := db.assessments ++ [{
      id := db.nextAssessmentId
      articleId := articleId
      topicId := topicId
      relevant := result.relevant
      summary := some result.summary
      tags := result.tags
      modelUsed := config.llmModel
      provider := config.llmProvider
      assessedAt := now }]
    nextAssessmentId := db.nextAssessmentId + 1 }

/-- The truncation of assessor.ts lines 130 to 133. -/
def truncatedText (config : AppConfig) (article : ArticleRow) : String :=
  (article.extractedText.getD "").take config.maxArticleLength

/-- One (article, topic) iteration of assessor.ts lines 104 to 172: skip the
pair when an assessment already exists, otherwise call the LLM collaborator
(none models a thrown or malformed call, the catch block) and either insert
the verdict or record that this article had a failure this cycle. -/
def assessTopicStep (llm : TopicRow → String → Option AssessmentOutput)
    (config : AppConfig) (now : Int) (article : ArticleRow)
    (acc : DB × Bool) (topic : TopicRow) : DB × Bool :=
  if pairExists acc.1 article.id topic.id then acc
  else
    match llm topic (truncatedText config article) with
    | some result =>
        (insertAssessment acc.1 article.id topic.id result config now, acc.2)
    | none => (acc.1, true)

/-- The per-article body of assessor.ts lines 101 to 208: iterate every
active topic, then update the article row: on any failure increment the
snapshot retry counter and mark failed once it reaches 3; otherwise mark the
article assessed. -/
def assessArticle (llm : TopicRow → String → Option AssessmentOutput)
    (config : AppConfig) (now : Int) (topics : List TopicRow) (db : DB)
    (article : ArticleRow) : DB :=
  let res := topics.foldl (assessTopicStep llm config now article) (db, false)
  if res.2 then
    let newRetryCount := article.assessmentRetryCount + 1
    let upd := fun (r : ArticleRow) =>
      { r with
        assessmentRetryCount := newRetryCount
        status := if 3 ≤ newRetryCount then "failed"
                  else "pending_assessment" }
    { res.1 with articles := updateArticles res.1.articles article.id upd }
  else
    let upd := fun (r : ArticleRow) => { r with status := "assessed" }
    { res.1 with articles := updateArticles res.1.articles article.id upd }

/-- Embeds assessPendingArticles (assessor.ts lines 58 to 211): return
untouched when nothing is pending or no topic is active, otherwise fold the
per-article body over the selection snapshot. -/
def assessPendingArticles (db : DB)
    (llm : TopicRow → String → Option AssessmentOutput) (config : AppConfig)
    (now : Int) : DB :=
  let pending := assessSelection db
  if pending.isEmpty then db
  else
    let topics := activeTopics db
    if topics.isEmpty then db
    else pending.foldl (assessArticle llm config now topics) db

/-- Number of stored assessment rows for a given (article, topic) pair. -/
def pairCount (db : DB) (articleId topicId : Nat) : Nat :=
  (db.assessments.filter (fun s =>
    s.articleId == articleId && s.topicId == topicId)).length

/-- Concrete article for the C1 witness: extracted and pending assessment. -/
def assessWitnessArticle : ArticleRow :=
  { id := 9
    feedId := 1
    guid := "g9"
    title := none
    url := "https://example.com/a9"
    publishedAt := none
    rawHtml := some "<p>b</p>"
    extractedText := some "body text"
    metadata := none
    status := "pending_assessment"
    fetchRetryCount := 0
    assessmentRetryCount := 0
    fetchedAt := none }

/-- Concrete store for the C1 witness: one pending article, one enabled
topic, no assessments yet. -/
def assessWitnessDb : DB :=
  { feeds := []
    articles := [assessWitnessArticle]
    topics := [{ id := 1, name := "ai", description := "d", enabled := true }]
    assessments := []
    digests := []
    nextArticleId := 10
    nextAssessmentId := 1
    nextDigestId := 1 }

/-- The LLM collaborator used by the assessor witnesses: every call succeeds
with a fixed relevant verdict. -/
def constantLlm : TopicRow → String → Option AssessmentOutput :=
  fun _ _ => some { relevant := true, summary := "s", tags := ["x"] }

-- ======================================================================
-- Assessor whole-article status transition (claim C6 machinery)
-- ======================================================================

/-- Whether at least one (article, topic) call fails in a cycle starting from
store db: the pair has no stored assessment (so it is not skipped) and the
LLM collaborator fails on it. -/
def failedIn (db : DB) (llm : TopicRow → String → Option AssessmentOutput)
    (config : AppConfig) (article : ArticleRow) (topics : List TopicRow) :
    Bool :=
  topics.any (fun t =>
    !pairExists db article.id t.id &&
      (llm t (truncatedText config article)).isNone)

/-- The always-failing LLM collaborator used by the C6 witness: every call
times out or returns a malformed response. -/
def failingLlm : TopicRow → String → Option AssessmentOutput :=
  fun _ _ => none

/-- A raw feed item with no id and no link, for the C10 witness. -/
def emptyRawItem : RawRssItem :=
  { guid := none, link := none, title := some "t", pubDate := none,
    prnIndustry := none, prnSubject := none, dcContributor := none }

/-- A store already holding one empty-guid article, for the C10 witness. -/
def emptyGuidDb : DB :=
  { feeds := []
    articles := [{
      id := 1
      feedId := 1
      guid := ""
      title := none
      url := ""
      publishedAt := none
      rawHtml := none
      extractedText := none
      metadata := none
      status := "pending_assessment"
      fetchRetryCount := 0
      assessmentRetryCount := 0
      fetchedAt := none }]
    topics := []
    assessments := []
    digests := []
    nextArticleId := 2
    nextAssessmentId := 1
    nextDigestId := 1 }

-- ======================================================================
-- Theorems
-- ======================================================================

-- Basic lemmas about the dedup primitives.

theorem guidExists_false_iff (db : DB) (g : String) :
    guidExists db g = false ↔ guidCount db g = 0 := by
  simp [guidExists, guidCount, List.length_eq_zero, List.filter_eq_nil_iff,
    List.any_eq_true]

theorem guidCount_insertNewArticle (db : DB) (f : Nat) (it : ParsedRssItem)
    (g : String) :
    guidCount (insertNewArticle db f it) g =
      guidCount db g + (if it.guid = g then 1 else 0) := by
  by_cases h : it.guid = g <;>
    simp [guidCount, insertNewArticle, List.filter_append, h]

/-- A batch whose guids are all already stored changes nothing: the store is
returned as is, nothing is inserted, and every item is counted skipped. -/
theorem dedup_all_present (feedId : Nat) :
    ∀ (items : List ParsedRssItem) (db : DB) (r : DedupResult),
      (∀ it ∈ items, guidExists db it.guid = true) →
      items.foldl (dedupStep feedId) (db, r) =
        (db, { newCount := r.newCount,
               skippedCount := r.skippedCount + items.length }) := by
  intro items
  induction items with
  | nil => intro db r _; simp
  | cons it rest ih =>
    intro db r h
    have hit : guidExists db it.guid = true := h it (by simp)
    have hrest : ∀ x ∈ rest, guidExists db x.guid = true := by
      intro x hx; exact h x (by simp [hx])
    simp only [List.foldl_cons, dedupStep, hit, if_true]
    rw [ih db _ hrest]
    simp [Nat.add_assoc, Nat.add_comm 1]

/-- A guid that is already stored exactly keeps its row count under any
further dedup fold: present guids are never re-inserted. -/
theorem dedup_count_preserved (feedId : Nat) (g : String) :
    ∀ (items : List ParsedRssItem) (db : DB) (r : DedupResult),
      guidCount db g ≠ 0 →
      guidCount (items.foldl (dedupStep feedId) (db, r)).1 g =
        guidCount db g := by
  intro items
  induction items with
  | nil => intro db r _; simp
  | cons it rest ih =>
    intro db r h
    by_cases he : guidExists db it.guid
    · simp only [List.foldl_cons, dedupStep, he, if_true]
      exact ih db _ h
    · have hne : it.guid ≠ g := by
        intro heq
        exact h (by
          have := (guidExists_false_iff db it.guid).mp (by simpa using he)
          simpa [heq] using this)
      simp only [List.foldl_cons, dedupStep, he, Bool.false_eq_true, if_false]
      rw [ih _ _ (by simp [guidCount_insertNewArticle, hne, h])]
      simp [guidCount_insertNewArticle, hne]

/-- A guid absent from the store but present in the batch ends with exactly
one stored row. -/
theorem dedup_absent_inserted_once (feedId : Nat) (g : String) :
    ∀ (items : List ParsedRssItem) (db : DB) (r : DedupResult),
      guidCount db g = 0 →
      g ∈ items.map (fun it => it.guid) →
      guidCount (items.foldl (dedupStep feedId) (db, r)).1 g = 1 := by
  intro items
  induction items with
  | nil => intro db r _ hm; simp at hm
  | cons it rest ih =>
    intro db r h0 hm
    by_cases hg : it.guid = g
    · have he : guidExists db it.guid = false := by
        rw [guidExists_false_iff]; simpa [hg] using h0
      simp only [List.foldl_cons, dedupStep, he, Bool.false_eq_true, if_false]
      have h1 : guidCount (insertNewArticle db feedId it) g = 1 := by
        simp [guidCount_insertNewArticle, hg, h0]
      rw [dedup_count_preserved feedId g rest _ _ (by simp [h1])]
      exact h1
    · have hm' : g ∈ rest.map (fun x => x.guid) := by
        simp only [List.map_cons, List.mem_cons] at hm
        rcases hm with hm | hm
        · exact absurd hm.symm hg
        · exact hm
      by_cases he : guidExists db it.guid
      · simp only [List.foldl_cons, dedupStep, he, if_true]
        exact ih db _ h0 hm'
      · simp only [List.foldl_cons, dedupStep, he, Bool.false_eq_true, if_false]
        exact ih _ _ (by simp [guidCount_insertNewArticle, hg, h0]) hm'

/-- Claim C3: the Deduplicator is idempotent with respect to guid.  A batch
all of whose guids already exist in the store inserts zero article rows
(the store is unchanged), reports newCount zero and skippedCount equal to the
batch size; and a guid absent from the store that occurs in the batch is
inserted exactly once, leaving exactly one row with that guid. -/
theorem dedup_idempotent_wrt_guid (db : DB) (feedId : Nat)
    (items : List ParsedRssItem) (g : String) :
    ((∀ it ∈ items, guidExists db it.guid = true) →
      deduplicateAndStore db feedId items =
        (db, { newCount := 0, skippedCount := items.length })) ∧
    (guidCount db g = 0 → g ∈ items.map (fun it => it.guid) →
      guidCount (deduplicateAndStore db feedId items).1 g = 1) := by
  constructor
  · intro h
    rw [deduplicateAndStore, dedup_all_present feedId items db _ h]
    simp
  · intro h0 hm
    exact dedup_absent_inserted_once feedId g items db _ h0 hm

/-- Witness for claim C3 at a concrete store and batch: both hypotheses are
discharged by computation. -/
theorem dedup_idempotent_wrt_guid_witness :
    (∀ it ∈ dedupWitnessItems, guidExists dedupWitnessDb it.guid = true) ∧
    deduplicateAndStore dedupWitnessDb 1 dedupWitnessItems =
      (dedupWitnessDb, { newCount := 0, skippedCount := 2 }) :=
  ⟨by decide,
   (dedup_idempotent_wrt_guid dedupWitnessDb 1 dedupWitnessItems "a1").1
     (by decide)⟩

theorem find?_update_self (l : List ArticleRow) (i : Nat)
    (f : ArticleRow → ArticleRow) (hid : ∀ r, (f r).id = r.id) :
    (updateArticles l i f).find? (fun r => r.id == i) =
      (l.find? (fun r => r.id == i)).map f := by
  induction l with
  | nil => simp [updateArticles]
  | cons r rest ih =>
    by_cases h : r.id = i
    · rw [updateArticles, List.map_cons, if_pos (by simpa using h),
        List.find?_cons_of_pos _ (by simpa [hid r] using h),
        List.find?_cons_of_pos _ (by simpa using h)]
      rfl
    · rw [updateArticles, List.map_cons, if_neg (by simpa using h),
        List.find?_cons_of_neg _ (by simpa using h),
        List.find?_cons_of_neg _ (by simpa using h)]
      exact ih

theorem find?_update_other (l : List ArticleRow) (i j : Nat) (hij : j ≠ i)
    (f : ArticleRow → ArticleRow) (hid : ∀ r, (f r).id = r.id) :
    (updateArticles l j f).find? (fun r => r.id == i) =
      l.find? (fun r => r.id == i) := by
  induction l with
  | nil => simp [updateArticles]
  | cons r rest ih =>
    by_cases h : r.id = j
    · have hni : r.id ≠ i := by rw [h]; exact hij
      rw [updateArticles, List.map_cons, if_pos (by simpa using h),
        List.find?_cons_of_neg _ (by simpa [hid r] using hni),
        List.find?_cons_of_neg _ (by simpa using hni)]
      exact ih
    · rw [updateArticles, List.map_cons, if_neg (by simpa using h)]
      by_cases hi : r.id = i
      · rw [List.find?_cons_of_pos _ (by simpa using hi),
          List.find?_cons_of_pos _ (by simpa using hi)]
      · rw [List.find?_cons_of_neg _ (by simpa using hi),
          List.find?_cons_of_neg _ (by simpa using hi)]
        exact ih

theorem find?_of_mem_nodup (l : List ArticleRow) (a : ArticleRow)
    (hnd : (l.map (fun r => r.id)).Nodup) (ha : a ∈ l) :
    l.find? (fun r => r.id == a.id) = some a := by
  induction l with
  | nil => simp at ha
  | cons r rest ih =>
    rcases List.mem_cons.mp ha with rfl | hmem
    · rw [List.find?_cons_of_pos _ (by simp)]
    · have hne : r.id ≠ a.id := by
        intro h
        have : a.id ∈ rest.map (fun x => x.id) :=
          List.mem_map.mpr ⟨a, hmem, rfl⟩
        rw [List.map_cons, List.nodup_cons] at hnd
        exact hnd.1 (h ▸ this)
      rw [List.find?_cons_of_neg _ (by simpa using hne)]
      exact ih (by rw [List.map_cons, List.nodup_cons] at hnd; exact hnd.2)
        hmem

theorem fetch_fold_frame (fetchResult : String → Option String) (now : Int)
    (i : Nat) :
    ∀ (items : List ArticleRow) (d : DB), (∀ b ∈ items, b.id ≠ i) →
      findArticle
        (items.foldl (fun d a => applyFetchOutcome d a (fetchResult a.url) now) d)
        i = findArticle d i := by
  intro items
  induction items with
  | nil => intro d _; rfl
  | cons b rest ih =>
    intro d h
    rw [List.foldl_cons, ih _ (fun x hx => h x (by simp [hx]))]
    have hb : b.id ≠ i := h b (by simp)
    cases hres : fetchResult b.url with
    | some html =>
      simp only [applyFetchOutcome, hres, findArticle]
      exact find?_update_other d.articles i b.id hb _ (fun r => rfl)
    | none =>
      simp only [applyFetchOutcome, hres, findArticle]
      exact find?_update_other d.articles i b.id hb _ (fun r => rfl)

theorem fetchSelection_ids_nodup (db : DB)
    (hnd : (db.articles.map (fun r => r.id)).Nodup) :
    ((fetchSelection db).map (fun r => r.id)).Nodup :=
  ((List.filter_sublist db.articles).map (fun r => r.id)).nodup hnd

theorem mem_of_mem_fetchSelection {db : DB} {a : ArticleRow}
    (h : a ∈ fetchSelection db) : a ∈ db.articles :=
  List.mem_of_mem_filter h

/-- Claim C4: fetch retry monotonicity.  First part: a selected article whose
fetch fails ends the pass with its retry counter incremented by exactly one
and status failed exactly when the new counter reaches 3, otherwise still
pending (the status string pending_assessment is what the specification calls
pending).  Second part: an article with three or more fetch retries, with raw
HTML already present, or with a status other than pending is never selected
and its row is untouched by the pass. -/
theorem fetch_retry_monotonic (db : DB) (fetchResult : String → Option String)
    (now : Int) (a : ArticleRow)
    (hnd : (db.articles.map (fun r => r.id)).Nodup) :
    (a ∈ fetchSelection db → fetchResult a.url = none →
      findArticle (fetchPendingArticles db fetchResult now) a.id =
        some { a with
          fetchRetryCount := a.fetchRetryCount + 1
          status := if a.fetchRetryCount + 1 = 3 then "failed"
                    else "pending_assessment" }) ∧
    (a ∈ db.articles →
      (3 ≤ a.fetchRetryCount ∨ a.rawHtml.isSome = true ∨
        a.status ≠ "pending_assessment") →
      a ∉ fetchSelection db ∧
      findArticle (fetchPendingArticles db fetchResult now) a.id = some a) := by
  constructor
  · intro hsel hfail
    obtain ⟨l₁, l₂, hsplit⟩ := List.append_of_mem hsel
    have hndSel := fetchSelection_ids_nodup db hnd
    rw [hsplit] at hndSel
    simp only [List.map_append, List.map_cons, List.nodup_append,
      List.nodup_cons] at hndSel
    have hl₁ : ∀ b ∈ l₁, b.id ≠ a.id := by
      intro b hb heq
      exact hndSel.2.2 (List.mem_map.mpr ⟨b, hb, rfl⟩) (by simp [heq])
    have hl₂ : ∀ b ∈ l₂, b.id ≠ a.id := by
      intro b hb heq
      exact hndSel.2.1.1 (List.mem_map.mpr ⟨b, hb, heq⟩)
    have hretry : a.fetchRetryCount < 3 := by
      have := List.of_mem_filter hsel
      simp only [Bool.and_eq_true, decide_eq_true_eq] at this
      exact this.2
    rw [fetchPendingArticles, hsplit, List.foldl_append, List.foldl_cons]
    rw [fetch_fold_frame fetchResult now a.id l₂ _ hl₂]
    have hbase : findArticle (l₁.foldl
        (fun d a => applyFetchOutcome d a (fetchResult a.url) now) db) a.id =
        some a := by
      rw [fetch_fold_frame fetchResult now a.id l₁ db hl₁, findArticle,
        find?_of_mem_nodup db.articles a hnd (mem_of_mem_fetchSelection hsel)]
    rw [hfail]
    show findArticle (applyFetchOutcome _ a none now) a.id = _
    rw [applyFetchOutcome]
    show (updateArticles _ a.id _).find? (fun r => r.id == a.id) = _
    have hstep := find?_update_self
      (List.foldl (fun d a => applyFetchOutcome d a (fetchResult a.url) now)
        db l₁).articles a.id
      (fun r => { r with
        fetchRetryCount := a.fetchRetryCount + 1
        status := if 3 ≤ a.fetchRetryCount + 1 then "failed"
                  else "pending_assessment" })
      (fun r => rfl)
    rw [hstep]
    rw [findArticle] at hbase
    rw [hbase]
    simp only [Option.map_some']
    by_cases h3 : a.fetchRetryCount + 1 = 3
    · rw [if_pos (show 3 ≤ a.fetchRetryCount + 1 by omega), if_pos h3]
    · rw [if_neg (show ¬ 3 ≤ a.fetchRetryCount + 1 by omega), if_neg h3]
  · intro hmem hbad
    have hnotsel : a ∉ fetchSelection db := by
      intro hsel
      have := List.of_mem_filter hsel
      simp only [Bool.and_eq_true, beq_iff_eq, Option.isNone_iff_eq_none,
        decide_eq_true_eq] at this
      rcases hbad with hb | hb | hb
      · omega
      · rw [this.1.2] at hb; simp at hb
      · exact hb this.1.1
    refine ⟨hnotsel, ?_⟩
    have hids : ∀ b ∈ fetchSelection db, b.id ≠ a.id := by
      intro b hb heq
      have : b = a :=
        List.inj_on_of_nodup_map hnd (mem_of_mem_fetchSelection hb) hmem heq
      exact hnotsel (this ▸ hb)
    rw [fetchPendingArticles, fetch_fold_frame fetchResult now a.id _ db hids,
      findArticle, find?_of_mem_nodup db.articles a hnd hmem]

/-- Witness for claim C4: the stored article starting at two retries ends at
three retries with status failed after one more failed fetch. -/
theorem fetch_retry_monotonic_witness :
    findArticle
      (fetchPendingArticles fetchWitnessDb (fun _ => none) 0)
      7 =
    some { fetchWitnessArticle with
      fetchRetryCount := 3
      status := "failed" } :=
  (fetch_retry_monotonic fetchWitnessDb (fun _ => none) 0
    fetchWitnessArticle (by simp [fetchWitnessDb])).1
    (by rw [show fetchSelection fetchWitnessDb = [fetchWitnessArticle] from rfl]
        exact List.mem_cons_self _ _)
    rfl

/-- Claim C2: digest windowing.  Soundness: every row built by buildDigest
comes from a relevant assessment strictly newer than the latest successful
digest, joined to its stored article and topic.  Completeness: every relevant
assessment strictly inside the window with both join partners contributes its
row.  Scenario: with one successful digest at time T and relevant assessments
at T - 1 and T + 1, the digest holds exactly the T + 1 article. -/
theorem buildDigest_window (db : DB) (T : Int) :
    (∀ p ∈ digestRows db, ∃ a ∈ db.assessments,
      a.relevant = true ∧ lastSuccessTime db < a.assessedAt ∧
      ∃ ar, db.articles.find? (fun r => r.id == a.articleId) = some ar ∧
      ∃ t, db.topics.find? (fun r => r.id == a.topicId) = some t ∧
        p = (t.name,
          { title := ar.title, url := ar.url, publishedAt := ar.publishedAt,
            summary := a.summary, tags := a.tags })) ∧
    (∀ a ∈ db.assessments, a.relevant = true →
      lastSuccessTime db < a.assessedAt →
      ∀ ar, db.articles.find? (fun r => r.id == a.articleId) = some ar →
      ∀ t, db.topics.find? (fun r => r.id == a.topicId) = some t →
        (t.name,
          { title := ar.title, url := ar.url, publishedAt := ar.publishedAt,
            summary := a.summary, tags := a.tags }) ∈ digestRows db) ∧
    buildDigest (digestScenarioDb T) =
      { topicGroups := [{ topicName := "ai", articles :=
          [{ title := some "New", url := "https://example.com/new",
             publishedAt := none, summary := some "s2", tags := [] }] }]
        totalArticleCount := 1 } := by
  refine ⟨?_, ?_, ?_⟩
  · intro p hp
    rw [digestRows] at hp
    obtain ⟨a, ha, hres⟩ := List.mem_filterMap.mp hp
    refine ⟨a, ha, ?_⟩
    by_cases hcond : a.relevant && decide (lastSuccessTime db < a.assessedAt)
    · rw [if_pos hcond] at hres
      simp only [Bool.and_eq_true, decide_eq_true_eq] at hcond
      refine ⟨hcond.1, hcond.2, ?_⟩
      cases har : db.articles.find? (fun r => r.id == a.articleId) with
      | none => rw [har] at hres; exact absurd hres (by simp)
      | some ar =>
        cases htp : db.topics.find? (fun r => r.id == a.topicId) with
        | none => rw [har, htp] at hres; exact absurd hres (by simp)
        | some t =>
          rw [har, htp] at hres
          exact ⟨ar, rfl, t, rfl, (Option.some_inj.mp hres).symm⟩
    · rw [if_neg hcond] at hres
      exact absurd hres (by simp)
  · intro a ha hrel hwin ar har t htp
    rw [digestRows]
    refine List.mem_filterMap.mpr ⟨a, ha, ?_⟩
    rw [if_pos (by simp [hrel, hwin]), har, htp]
  · have h1 : ((T : Int) < T - 1) = False := by simp
    have h2 : ((T : Int) < T + 1) = True := by simp
    simp [buildDigest, digestRows, lastSuccessTime, digestScenarioDb,
      digestOldArticle, digestNewArticle, groupByTopic, pushGroup,
      List.filterMap_cons, h1, h2]

/-- Witness for claim C2: the soundness and completeness parts applied to the
concrete scenario store at T = 100, and the scenario instance itself. -/
theorem buildDigest_window_witness :
    (("ai",
      ({ title := some "New", url := "https://example.com/new",
         publishedAt := none, summary := some "s2",
         tags := [] } : DigestArticle)) ∈ digestRows (digestScenarioDb 100)) ∧
    (buildDigest (digestScenarioDb 100)).totalArticleCount = 1 := by
  constructor
  · refine (buildDigest_window (digestScenarioDb 100) 100).2.1
      { id := 2, articleId := 2, topicId := 1, relevant := true,
        summary := some "s2", tags := [], modelUsed := "m", provider := "p",
        assessedAt := 101 }
      (by rw [show (digestScenarioDb 100).assessments =
            [{ id := 1, articleId := 1, topicId := 1, relevant := true,
               summary := some "s1", tags := [], modelUsed := "m",
               provider := "p", assessedAt := 99 },
             { id := 2, articleId := 2, topicId := 1, relevant := true,
               summary := some "s2", tags := [], modelUsed := "m",
               provider := "p", assessedAt := 101 }] from rfl]
          exact List.mem_cons_of_mem _ (List.mem_cons_self _ _))
      rfl (by decide)
      digestNewArticle rfl
      { id := 1, name := "ai", description := "d", enabled := true } rfl
  · rw [(buildDigest_window (digestScenarioDb 100) 100).2.2]

/-- Claim C5: empty-digest advancement.  When the builder reports zero
articles, the orchestrator invokes the send collaborator zero times and
appends exactly one success record with article count zero; when the count is
positive, it invokes the send collaborator exactly once and appends exactly
one record with the actual count and a status reflecting the send outcome. -/
theorem empty_digest_advancement (db : DB) (config : AppConfig)
    (sendSucceeds : Bool) (now : Int) :
    ((buildDigest db).totalArticleCount = 0 →
      (runDigestCycle db config sendSucceeds now).2 = 0 ∧
      (runDigestCycle db config sendSucceeds now).1.digests =
        db.digests ++ [{
          id := db.nextDigestId, sentAt := now, articleCount := 0,
          recipient := config.digestRecipient, status := "success" }]) ∧
    (0 < (buildDigest db).totalArticleCount →
      (runDigestCycle db config sendSucceeds now).2 = 1 ∧
      (runDigestCycle db config sendSucceeds now).1.digests =
        db.digests ++ [{
          id := db.nextDigestId, sentAt := now,
          articleCount := (buildDigest db).totalArticleCount,
          recipient := config.digestRecipient,
          status := if sendSucceeds then "success" else "failed" }]) := by
  constructor
  · intro h0
    refine ⟨?_, ?_⟩ <;> simp [runDigestCycle, h0, insertDigestRecord]
  · intro hpos
    have hne : ¬ (buildDigest db).totalArticleCount = 0 := by omega
    refine ⟨?_, ?_⟩ <;> simp [runDigestCycle, hne, insertDigestRecord]

/-- Witness for claim C5: the empty branch at an empty store (zero send
invocations) and the non-empty branch at the scenario store with a failing
send (one invocation, failed record). -/
theorem empty_digest_advancement_witness :
    ((runDigestCycle emptyDb digestWitnessConfig true 5).2 = 0 ∧
      (runDigestCycle emptyDb digestWitnessConfig true 5).1.digests =
        [{ id := 1, sentAt := 5, articleCount := 0,
           recipient := "who@example.com", status := "success" }]) ∧
    ((runDigestCycle (digestScenarioDb 100) digestWitnessConfig false 200).2 = 1 ∧
      (runDigestCycle (digestScenarioDb 100) digestWitnessConfig false 200).1.digests =
        (digestScenarioDb 100).digests ++ [{
          id := 2, sentAt := 200, articleCount := 1,
          recipient := "who@example.com", status := "failed" }]) :=
  ⟨(empty_digest_advancement emptyDb digestWitnessConfig true 5).1 rfl,
   (empty_digest_advancement (digestScenarioDb 100) digestWitnessConfig
      false 200).2 (by rw [show (buildDigest (digestScenarioDb 100)).totalArticleCount = 1 from rfl]; omega)⟩

/-- Every JSON-LD entry produced by extractContent passes the JS
typeof-object guard: it is a JSON object or a JSON array, never null or a
primitive. -/
theorem extractContent_entries_js_objects (doc : HtmlDoc)
    (config : ExtractorConfig) (jsonParse : String → Option Json) :
    ∀ j ∈ (extractContent doc config jsonParse).jsonLdData,
      isJsObject j = true := by
  intro j hj
  rw [extractContent] at hj
  rcases List.mem_append.mp hj with hj | hj
  · by_cases hflag : config.jsonLd
    · rw [if_pos hflag] at hj
      obtain ⟨raw, _, hraw⟩ := List.mem_filterMap.mp hj
      cases raw with
      | none => exact absurd hraw (by simp [parseLdScript])
      | some s =>
        rw [parseLdScript] at hraw
        by_cases hs : s = ""
        · rw [if_pos hs] at hraw; exact absurd hraw (by simp)
        · rw [if_neg hs] at hraw
          cases hp : jsonParse s with
          | none => rw [hp] at hraw; exact absurd hraw (by simp)
          | some parsed =>
            simp only [hp] at hraw
            by_cases hob : isJsObject parsed
            · rw [if_pos hob] at hraw
              rwa [← Option.some_inj.mp hraw]
            · rw [if_neg hob] at hraw; exact absurd hraw (by simp)
    · rw [if_neg hflag] at hj; simp at hj
  · obtain ⟨kv, _, hkv⟩ := List.mem_filterMap.mp hj
    rw [metaEntry] at hkv
    by_cases hv : (doc.selectorText kv.2).trim = ""
    · rw [if_pos hv] at hkv; exact absurd hkv (by simp)
    · rw [if_neg hv] at hkv
      by_cases hsrc : kv.1 = "_source"
      · rw [if_pos hsrc] at hkv
        rw [← Option.some_inj.mp hkv]; rfl
      · rw [if_neg hsrc] at hkv
        rw [← Option.some_inj.mp hkv]; rfl

/-- A malformed JSON-LD block (one the JSON.parse collaborator rejects) is
skipped without affecting anything else: extraction returns the same result
as if the block were absent. -/
theorem extractContent_skips_malformed (doc : HtmlDoc)
    (config : ExtractorConfig) (jsonParse : String → Option Json)
    (l₁ l₂ : List (Option String)) (bad : String)
    (hbad : jsonParse bad = none) :
    extractContent { doc with ldScripts := l₁ ++ some bad :: l₂ } config
        jsonParse =
      extractContent { doc with ldScripts := l₁ ++ l₂ } config jsonParse := by
  have hskip : parseLdScript jsonParse (some bad) = none := by
    rw [parseLdScript]
    by_cases hs : bad = ""
    · rw [if_pos hs]
    · rw [if_neg hs, hbad]
  rw [extractContent, extractContent]
  by_cases hflag : config.jsonLd
  · rw [if_pos hflag, if_pos hflag]
    simp only [List.filterMap_append, List.filterMap_cons, hskip]
    rfl
  · rw [if_neg hflag, if_neg hflag]
    rfl

/-- A well-formed block whose parsed value passes the typeof-object guard is
kept when structured-data parsing is enabled. -/
theorem extractContent_keeps_wellformed (doc : HtmlDoc)
    (config : ExtractorConfig) (jsonParse : String → Option Json)
    (s : String) (j : Json) (hs : s ≠ "") (hmem : some s ∈ doc.ldScripts)
    (hp : jsonParse s = some j) (hob : isJsObject j = true)
    (hflag : config.jsonLd = true) :
    j ∈ (extractContent doc config jsonParse).jsonLdData := by
  rw [extractContent]
  refine List.mem_append_left _ ?_
  rw [if_pos hflag]
  refine List.mem_filterMap.mpr ⟨some s, hmem, ?_⟩
  rw [parseLdScript, if_neg hs]
  simp only [hp]
  rw [if_pos hob]

/-- Counterexample for claim C8 as stated: a block whose top-level parsed
value is a JSON array, not an object, is nonetheless kept, so the returned
structured-data list does not contain only objects. -/
theorem extractor_keeps_array_block :
    (extractContent arrayLdDoc arrayLdConfig arrayJsonParse).jsonLdData =
      [Json.arr [Json.num 1]] ∧
    Json.isObj (Json.arr [Json.num 1]) = false :=
  ⟨rfl, rfl⟩

/-- Claim C8 amended: with structured data enabled the Extractor parses each
embedded script block as JSON, keeps every well-formed block whose top-level
value passes the JS typeof-object guard, which admits JSON arrays as well as
objects, silently skips every malformed block without failing, and discards
every block whose top-level value is null or a primitive — so the returned
structured-data list contains only objects and arrays. -/
theorem extractor_structured_data (doc : HtmlDoc) (config : ExtractorConfig)
    (jsonParse : String → Option Json) (s bad : String) (j : Json)
    (l₁ l₂ : List (Option String)) :
    (∀ x ∈ (extractContent doc config jsonParse).jsonLdData,
        isJsObject x = true) ∧
    (jsonParse bad = none →
      extractContent { doc with ldScripts := l₁ ++ some bad :: l₂ } config
          jsonParse =
        extractContent { doc with ldScripts := l₁ ++ l₂ } config jsonParse) ∧
    (s ≠ "" → some s ∈ doc.ldScripts → jsonParse s = some j →
      isJsObject j = true → config.jsonLd = true →
      j ∈ (extractContent doc config jsonParse).jsonLdData) :=
  ⟨extractContent_entries_js_objects doc config jsonParse,
   extractContent_skips_malformed doc config jsonParse l₁ l₂ bad,
   fun hs hmem hp hob hflag =>
     extractContent_keeps_wellformed doc config jsonParse s j hs hmem hp hob
       hflag⟩

/-- Witness for the amended claim C8 at concrete inputs: all three parts
applied with their hypotheses discharged by computation. -/
theorem extractor_structured_data_witness :
    (∀ x ∈ (extractContent mixedLdDoc arrayLdConfig mixedJsonParse).jsonLdData,
        isJsObject x = true) ∧
    extractContent
        { mixedLdDoc with
          ldScripts := [some objBlockText] ++ some "not json" :: [] }
        arrayLdConfig mixedJsonParse =
      extractContent
        { mixedLdDoc with ldScripts := [some objBlockText] ++ [] }
        arrayLdConfig mixedJsonParse ∧
    Json.obj [("a", Json.num 1)] ∈
      (extractContent mixedLdDoc arrayLdConfig mixedJsonParse).jsonLdData := by
  have h := extractor_structured_data mixedLdDoc arrayLdConfig mixedJsonParse
    objBlockText "not json" (Json.obj [("a", Json.num 1)])
    [some objBlockText] []
  exact ⟨h.1, h.2.1 rfl,
    h.2.2 (by decide) (by simp [mixedLdDoc]) rfl rfl rfl⟩

theorem find?_replaceKey (k : String) (v : Json) :
    ∀ m : List (String × Json), m.any (fun p => p.1 == k) = true →
      (m.map (fun p => if p.1 == k then (k, v) else p)).find?
          (fun p => p.1 == k) = some (k, v) := by
  intro m
  induction m with
  | nil => intro h; simp at h
  | cons p rest ih =>
    intro h
    by_cases hp : p.1 = k
    · rw [List.map_cons, if_pos (by simpa using hp),
        List.find?_cons_of_pos _ (by simp)]
    · rw [List.map_cons, if_neg (by simpa using hp),
        List.find?_cons_of_neg _ (by simpa using hp)]
      refine ih ?_
      rw [List.any_cons] at h
      simpa [hp] using h

theorem find?_appendKey (k : String) (v : Json) :
    ∀ m : List (String × Json), m.any (fun p => p.1 == k) = false →
      (m ++ [(k, v)]).find? (fun p => p.1 == k) = some (k, v) := by
  intro m
  induction m with
  | nil => intro _; rw [List.nil_append, List.find?_cons_of_pos _ (by simp)]
  | cons p rest ih =>
    intro h
    rw [List.any_cons, Bool.or_eq_false_iff] at h
    rw [List.cons_append, List.find?_cons_of_neg _ (by simp [h.1])]
    exact ih h.2

theorem find?_replaceKey_other (k k' : String) (v : Json) (hkk : k' ≠ k) :
    ∀ m : List (String × Json),
      (m.map (fun p => if p.1 == k then (k, v) else p)).find?
          (fun p => p.1 == k') = m.find? (fun p => p.1 == k') := by
  intro m
  induction m with
  | nil => rfl
  | cons p rest ih =>
    by_cases hp : p.1 = k
    · have hp' : p.1 ≠ k' := by rw [hp]; exact fun h => hkk h.symm
      rw [List.map_cons, if_pos (by simpa using hp),
        List.find?_cons_of_neg _ (by simpa using fun h => hkk h.symm),
        List.find?_cons_of_neg _ (by simpa using hp')]
      exact ih
    · rw [List.map_cons, if_neg (by simpa using hp)]
      by_cases hp' : p.1 = k'
      · rw [List.find?_cons_of_pos _ (by simpa using hp'),
          List.find?_cons_of_pos _ (by simpa using hp')]
      · rw [List.find?_cons_of_neg _ (by simpa using hp'),
          List.find?_cons_of_neg _ (by simpa using hp')]
        exact ih

theorem find?_append_single_other (k k' : String) (v : Json) (hkk : k' ≠ k) :
    ∀ m : List (String × Json),
      (m ++ [(k, v)]).find? (fun p => p.1 == k') =
        m.find? (fun p => p.1 == k') := by
  intro m
  induction m with
  | nil =>
    rw [List.nil_append, List.find?_nil,
      List.find?_cons_of_neg _ (by simpa using fun h => hkk h.symm),
      List.find?_nil]
  | cons p rest ih =>
    by_cases hp : p.1 = k'
    · rw [List.cons_append, List.find?_cons_of_pos _ (by simpa using hp),
        List.find?_cons_of_pos _ (by simpa using hp)]
    · rw [List.cons_append, List.find?_cons_of_neg _ (by simpa using hp),
        List.find?_cons_of_neg _ (by simpa using hp)]
      exact ih

/-- The spread key ends up mapping to the spread value. -/
theorem getKey_setKey_self (m : List (String × Json)) (k : String) (v : Json) :
    getKey (setKey m k v) k = some v := by
  rw [setKey]
  by_cases h : m.any (fun p => p.1 == k)
  · rw [if_pos h, getKey, find?_replaceKey k v m h, Option.map_some']
  · rw [if_neg h, getKey,
      find?_appendKey k v m (Bool.eq_false_iff.mpr h), Option.map_some']

/-- Every other key keeps its value under the spread. -/
theorem getKey_setKey_other (m : List (String × Json)) (k k' : String)
    (v : Json) (hkk : k' ≠ k) : getKey (setKey m k v) k' = getKey m k' := by
  rw [setKey]
  by_cases h : m.any (fun p => p.1 == k)
  · rw [if_pos h, getKey, find?_replaceKey_other k k' v hkk m, getKey]
  · rw [if_neg h, getKey, find?_append_single_other k k' v hkk m, getKey]

theorem extract_step_frame (loadHtml : String → HtmlDoc)
    (jsonParse : String → Option Json) (i : Nat) (d : DB) (b : ArticleRow)
    (hb : b.id ≠ i) :
    findArticle (extractArticleStep loadHtml jsonParse d b) i =
      findArticle d i := by
  rw [extractArticleStep]
  cases hf : d.feeds.find? (fun f => f.id == b.feedId) with
  | none => rfl
  | some feed =>
    show (updateArticles d.articles b.id _).find? (fun r => r.id == i) = _
    exact find?_update_other d.articles i b.id hb _ (fun r => rfl)

theorem extract_fold_frame (loadHtml : String → HtmlDoc)
    (jsonParse : String → Option Json) (i : Nat) :
    ∀ (items : List ArticleRow) (d : DB), (∀ b ∈ items, b.id ≠ i) →
      findArticle
        (items.foldl (extractArticleStep loadHtml jsonParse) d) i =
      findArticle d i := by
  intro items
  induction items with
  | nil => intro d _; rfl
  | cons b rest ih =>
    intro d h
    rw [List.foldl_cons, ih _ (fun x hx => h x (by simp [hx])),
      extract_step_frame loadHtml jsonParse i d b (h b (by simp))]

theorem extract_fold_feeds (loadHtml : String → HtmlDoc)
    (jsonParse : String → Option Json) :
    ∀ (items : List ArticleRow) (d : DB),
      (items.foldl (extractArticleStep loadHtml jsonParse) d).feeds =
        d.feeds := by
  intro items
  induction items with
  | nil => intro d; rfl
  | cons b rest ih =>
    intro d
    rw [List.foldl_cons, ih]
    rw [extractArticleStep]
    cases d.feeds.find? (fun f => f.id == b.feedId) with
    | none => rfl
    | some feed => rfl

/-- Counterexample for claim C7 as stated: a key/value pair present in the
metadata bag before extraction, namely jsonLd mapped to the string x, is no
longer present with the same value afterwards — the spread overwrites it with
the structured-data list. -/
theorem extract_overwrites_jsonld_key :
    getKey ([("jsonLd", Json.str "x")]) "jsonLd" = some (Json.str "x") ∧
    (findArticle
        (extractPendingArticles overwriteDb emptyLoadHtml (fun _ => none))
        1).map (fun r => getKey (r.metadata.getD []) "jsonLd") =
      some (some (Json.arr [])) ∧
    Json.arr [] ≠ Json.str "x" :=
  ⟨rfl, rfl, fun h => Json.noConfusion h⟩

/-- Claim C7 amended: for every article it processes, extraction preserves
every key/value pair of the existing metadata bag except at the reserved
structured-data key jsonLd, and stores the structured-data result under
jsonLd, overwriting any value previously stored at that key. -/
theorem extract_preserves_metadata (db : DB) (loadHtml : String → HtmlDoc)
    (jsonParse : String → Option Json) (row : ArticleRow) (feed : FeedRow)
    (hnd : (db.articles.map (fun r => r.id)).Nodup)
    (hsel : row ∈ extractSelection db)
    (hfd : db.feeds.find? (fun f => f.id == row.feedId) = some feed) :
    (∀ k v, k ≠ "jsonLd" → getKey (row.metadata.getD []) k = some v →
      (findArticle (extractPendingArticles db loadHtml jsonParse)
          row.id).map (fun r => getKey (r.metadata.getD []) k) =
        some (some v)) ∧
    (findArticle (extractPendingArticles db loadHtml jsonParse)
        row.id).map (fun r => getKey (r.metadata.getD []) "jsonLd") =
      some (some (Json.arr
        (extractContent (loadHtml (row.rawHtml.getD ""))
          feed.extractorConfig jsonParse).jsonLdData)) := by
  obtain ⟨l₁, l₂, hsplit⟩ := List.append_of_mem hsel
  have hndSel : ((extractSelection db).map (fun r => r.id)).Nodup :=
    ((List.filter_sublist db.articles).map (fun r => r.id)).nodup hnd
  rw [hsplit] at hndSel
  simp only [List.map_append, List.map_cons, List.nodup_append,
    List.nodup_cons] at hndSel
  have hl₁ : ∀ b ∈ l₁, b.id ≠ row.id := by
    intro b hb heq
    exact hndSel.2.2 (List.mem_map.mpr ⟨b, hb, rfl⟩) (by simp [heq])
  have hl₂ : ∀ b ∈ l₂, b.id ≠ row.id := by
    intro b hb heq
    exact hndSel.2.1.1 (List.mem_map.mpr ⟨b, hb, heq⟩)
  have hbase : findArticle
      (l₁.foldl (extractArticleStep loadHtml jsonParse) db) row.id =
      some row := by
    rw [extract_fold_frame loadHtml jsonParse row.id l₁ db hl₁, findArticle,
      find?_of_mem_nodup db.articles row hnd (List.mem_of_mem_filter hsel)]
  have hrun : findArticle (extractPendingArticles db loadHtml jsonParse)
      row.id =
      some { row with
        extractedText := some (extractContent (loadHtml (row.rawHtml.getD ""))
          feed.extractorConfig jsonParse).extractedText
        metadata := some (setKey (row.metadata.getD []) "jsonLd"
          (Json.arr (extractContent (loadHtml (row.rawHtml.getD ""))
            feed.extractorConfig jsonParse).jsonLdData)) } := by
    rw [extractPendingArticles, hsplit, List.foldl_append, List.foldl_cons]
    rw [extract_fold_frame loadHtml jsonParse row.id l₂ _ hl₂]
    rw [extractArticleStep]
    rw [extract_fold_feeds loadHtml jsonParse l₁ db, hfd]
    show (updateArticles _ row.id _).find? (fun r => r.id == row.id) = _
    have hstep := find?_update_self
      (l₁.foldl (extractArticleStep loadHtml jsonParse) db).articles row.id
      (fun r => { r with
        extractedText := some (extractContent (loadHtml (row.rawHtml.getD ""))
          feed.extractorConfig jsonParse).extractedText
        metadata := some (setKey (row.metadata.getD []) "jsonLd"
          (Json.arr (extractContent (loadHtml (row.rawHtml.getD ""))
            feed.extractorConfig jsonParse).jsonLdData)) })
      (fun r => rfl)
    rw [hstep]
    rw [findArticle] at hbase
    rw [hbase]
    rfl
  constructor
  · intro k v hk hkv
    rw [hrun, Option.map_some']
    rw [show ({ row with
        extractedText := some (extractContent (loadHtml (row.rawHtml.getD ""))
          feed.extractorConfig jsonParse).extractedText
        metadata := some (setKey (row.metadata.getD []) "jsonLd"
          (Json.arr (extractContent (loadHtml (row.rawHtml.getD ""))
            feed.extractorConfig jsonParse).jsonLdData)) } :
        ArticleRow).metadata.getD [] =
      setKey (row.metadata.getD []) "jsonLd"
        (Json.arr (extractContent (loadHtml (row.rawHtml.getD ""))
          feed.extractorConfig jsonParse).jsonLdData) from rfl]
    rw [getKey_setKey_other _ _ _ _ hk, hkv]
  · rw [hrun, Option.map_some']
    rw [show ({ row with
        extractedText := some (extractContent (loadHtml (row.rawHtml.getD ""))
          feed.extractorConfig jsonParse).extractedText
        metadata := some (setKey (row.metadata.getD []) "jsonLd"
          (Json.arr (extractContent (loadHtml (row.rawHtml.getD ""))
            feed.extractorConfig jsonParse).jsonLdData)) } :
        ArticleRow).metadata.getD [] =
      setKey (row.metadata.getD []) "jsonLd"
        (Json.arr (extractContent (loadHtml (row.rawHtml.getD ""))
          feed.extractorConfig jsonParse).jsonLdData) from rfl]
    rw [getKey_setKey_self]

/-- Witness for the amended claim C7: the RSS key prnIndustry survives the
merge with its value, and the structured data sits under jsonLd. -/
theorem extract_preserves_metadata_witness :
    (findArticle
        (extractPendingArticles extractWitnessDb emptyLoadHtml (fun _ => none))
        4).map (fun r => getKey (r.metadata.getD []) "prnIndustry") =
      some (some (Json.str "Tech")) ∧
    (findArticle
        (extractPendingArticles extractWitnessDb emptyLoadHtml (fun _ => none))
        4).map (fun r => getKey (r.metadata.getD []) "jsonLd") =
      some (some (Json.arr [])) := by
  have h := extract_preserves_metadata extractWitnessDb emptyLoadHtml
    (fun _ => none) extractWitnessArticle extractTestFeed
    (by simp [extractWitnessDb])
    (by rw [show extractSelection extractWitnessDb =
          [extractWitnessArticle] from rfl]
        exact List.mem_cons_self _ _)
    rfl
  exact ⟨h.1 "prnIndustry" (Json.str "Tech") (by decide) rfl, h.2⟩

theorem pairExists_false_iff (db : DB) (aid tid : Nat) :
    pairExists db aid tid = false ↔ pairCount db aid tid = 0 := by
  simp [pairExists, pairCount, List.length_eq_zero, List.filter_eq_nil_iff,
    List.any_eq_true]

theorem pairCount_insertAssessment (db : DB) (a t : Nat)
    (result : AssessmentOutput) (config : AppConfig) (now : Int)
    (aid tid : Nat) :
    pairCount (insertAssessment db a t result config now) aid tid =
      pairCount db aid tid + (if a = aid ∧ t = tid then 1 else 0) := by
  by_cases h : a = aid ∧ t = tid
  · simp [pairCount, insertAssessment, List.filter_append, h.1, h.2, h]
  · have : ¬ (a = aid ∧ t = tid) := h
    simp only [pairCount, insertAssessment, List.filter_append,
      List.length_append, if_neg h]
    have hz : (([{
        id := db.nextAssessmentId
        articleId := a
        topicId := t
        relevant := result.relevant
        summary := some result.summary
        tags := result.tags
        modelUsed := config.llmModel
        provider := config.llmProvider
        assessedAt := now }] : List AssessmentRow).filter (fun s =>
          s.articleId == aid && s.topicId == tid)).length = 0 := by
      simp only [List.length_eq_zero, List.filter_eq_nil_iff]
      intro s hs
      rw [List.mem_singleton] at hs
      subst hs
      simp only [Bool.and_eq_true, beq_iff_eq]
      intro hc
      exact h ⟨hc.1, hc.2⟩
    rw [hz]

theorem pairCount_topicStep (llm : TopicRow → String → Option AssessmentOutput)
    (config : AppConfig) (now : Int) (article : ArticleRow)
    (acc : DB × Bool) (topic : TopicRow) (aid tid : Nat) :
    pairCount (assessTopicStep llm config now article acc topic).1 aid tid ≤
      max (pairCount acc.1 aid tid) 1 := by
  rw [assessTopicStep]
  by_cases hex : pairExists acc.1 article.id topic.id
  · rw [if_pos hex]
    exact Nat.le_max_left _ _
  · rw [if_neg hex]
    cases hllm : llm topic (truncatedText config article) with
    | none => exact Nat.le_max_left _ _
    | some result =>
      show pairCount (insertAssessment acc.1 article.id topic.id result
        config now) aid tid ≤ _
      rw [pairCount_insertAssessment]
      by_cases hpair : article.id = aid ∧ topic.id = tid
      · have h0 : pairCount acc.1 aid tid = 0 := by
          rw [← hpair.1, ← hpair.2]
          exact (pairExists_false_iff acc.1 article.id topic.id).mp
            (Bool.eq_false_iff.mpr hex)
        rw [if_pos hpair, h0]
        exact Nat.le_max_right _ _
      · rw [if_neg hpair]
        exact Nat.le_max_left _ _

theorem pairCount_topicFold (llm : TopicRow → String → Option AssessmentOutput)
    (config : AppConfig) (now : Int) (article : ArticleRow) (aid tid : Nat) :
    ∀ (topics : List TopicRow) (acc : DB × Bool),
      pairCount (topics.foldl (assessTopicStep llm config now article)
        acc).1 aid tid ≤ max (pairCount acc.1 aid tid) 1 := by
  intro topics
  induction topics with
  | nil => intro acc; exact Nat.le_max_left _ _
  | cons t rest ih =>
    intro acc
    rw [List.foldl_cons]
    have h1 := pairCount_topicStep llm config now article acc t aid tid
    have h2 := ih (assessTopicStep llm config now article acc t)
    omega

theorem pairCount_assessArticle
    (llm : TopicRow → String → Option AssessmentOutput) (config : AppConfig)
    (now : Int) (topics : List TopicRow) (db : DB) (article : ArticleRow)
    (aid tid : Nat) :
    pairCount (assessArticle llm config now topics db article) aid tid ≤
      max (pairCount db aid tid) 1 := by
  rw [assessArticle]
  have h := pairCount_topicFold llm config now article aid tid topics
    (db, false)
  by_cases hfl : (topics.foldl (assessTopicStep llm config now article)
      (db, false)).2
  · rw [if_pos hfl]
    exact h
  · rw [if_neg hfl]
    exact h

theorem pairCount_articleFold
    (llm : TopicRow → String → Option AssessmentOutput) (config : AppConfig)
    (now : Int) (topics : List TopicRow) (aid tid : Nat) :
    ∀ (items : List ArticleRow) (db : DB),
      pairCount (items.foldl (assessArticle llm config now topics) db)
        aid tid ≤ max (pairCount db aid tid) 1 := by
  intro items
  induction items with
  | nil => intro db; exact Nat.le_max_left _ _
  | cons a rest ih =>
    intro db
    rw [List.foldl_cons]
    have h1 := pairCount_assessArticle llm config now topics db a aid tid
    have h2 := ih (assessArticle llm config now topics db a)
    omega

theorem pairCount_assessPendingArticles
    (llm : TopicRow → String → Option AssessmentOutput) (config : AppConfig)
    (now : Int) (db : DB) (aid tid : Nat) :
    pairCount (assessPendingArticles db llm config now) aid tid ≤
      max (pairCount db aid tid) 1 := by
  rw [assessPendingArticles]
  by_cases hp : (assessSelection db).isEmpty
  · simp only [hp, if_pos]
    exact Nat.le_max_left _ _
  · simp only [hp, Bool.false_eq_true, if_false]
    by_cases ht : (activeTopics db).isEmpty
    · simp only [ht, if_pos]
      exact Nat.le_max_left _ _
    · simp only [ht, Bool.false_eq_true, if_false]
      exact pairCount_articleFold llm config now (activeTopics db) aid tid
        (assessSelection db) db

/-- Claim C1: assessment uniqueness per (article, topic) pair.  Starting from
a store holding at most one assessment row for the pair, running the Assessor
any number of times, in particular twice, still leaves at most one row for
the pair: the check-then-insert skips pairs that already have a verdict. -/
theorem assessment_uniqueness (db : DB)
    (llm : TopicRow → String → Option AssessmentOutput) (config : AppConfig)
    (now : Int) (aid tid : Nat) (h : pairCount db aid tid ≤ 1) :
    ∀ n : Nat,
      pairCount ((fun d => assessPendingArticles d llm config now)^[n] db)
        aid tid ≤ 1 := by
  intro n
  induction n with
  | zero => exact h
  | succ m ih =>
    rw [Function.iterate_succ_apply']
    have := pairCount_assessPendingArticles llm config now
      ((fun d => assessPendingArticles d llm config now)^[m] db) aid tid
    omega

/-- Witness for claim C1: running the Assessor twice on a store with no
assessment for the pair leaves at most one row for it. -/
theorem assessment_uniqueness_witness :
    pairCount assessWitnessDb 9 1 ≤ 1 ∧
    pairCount
      ((fun d => assessPendingArticles d constantLlm digestWitnessConfig 50)^[2]
        assessWitnessDb) 9 1 ≤ 1 :=
  ⟨by decide,
   assessment_uniqueness assessWitnessDb constantLlm digestWitnessConfig 50
     9 1 (by decide) 2⟩

theorem pairExists_insertAssessment (db : DB) (a t : Nat)
    (result : AssessmentOutput) (config : AppConfig) (now : Int)
    (aid tid : Nat) :
    pairExists (insertAssessment db a t result config now) aid tid =
      (pairExists db aid tid || (a == aid && t == tid)) := by
  simp [pairExists, insertAssessment, List.any_append]

theorem topicFold_articles (llm : TopicRow → String → Option AssessmentOutput)
    (config : AppConfig) (now : Int) (article : ArticleRow) :
    ∀ (topics : List TopicRow) (acc : DB × Bool),
      ((topics.foldl (assessTopicStep llm config now article) acc).1).articles
        = acc.1.articles := by
  intro topics
  induction topics with
  | nil => intro acc; rfl
  | cons t rest ih =>
    intro acc
    rw [List.foldl_cons, ih]
    rw [assessTopicStep]
    by_cases hex : pairExists acc.1 article.id t.id
    · rw [if_pos hex]
    · rw [if_neg hex]
      cases llm t (truncatedText config article) with
      | none => rfl
      | some result => rfl

theorem topicFold_pairExists_frame
    (llm : TopicRow → String → Option AssessmentOutput) (config : AppConfig)
    (now : Int) (article : ArticleRow) (aid tid : Nat)
    (hne : article.id ≠ aid) :
    ∀ (topics : List TopicRow) (acc : DB × Bool),
      pairExists
        (topics.foldl (assessTopicStep llm config now article) acc).1 aid tid
        = pairExists acc.1 aid tid := by
  intro topics
  induction topics with
  | nil => intro acc; rfl
  | cons t rest ih =>
    intro acc
    rw [List.foldl_cons, ih]
    rw [assessTopicStep]
    by_cases hex : pairExists acc.1 article.id t.id
    · rw [if_pos hex]
    · rw [if_neg hex]
      cases llm t (truncatedText config article) with
      | none => rfl
      | some result =>
        show pairExists (insertAssessment acc.1 article.id t.id result config
          now) aid tid = _
        rw [pairExists_insertAssessment]
        simp [hne]

theorem topicFold_flag (llm : TopicRow → String → Option AssessmentOutput)
    (config : AppConfig) (now : Int) (article : ArticleRow) (db₀ : DB) :
    ∀ (topics : List TopicRow) (d : DB) (f : Bool),
      (topics.map (fun t => t.id)).Nodup →
      (∀ t ∈ topics,
        pairExists d article.id t.id = pairExists db₀ article.id t.id) →
      (topics.foldl (assessTopicStep llm config now article) (d, f)).2 =
        (f || failedIn db₀ llm config article topics) := by
  intro topics
  induction topics with
  | nil => intro d f _ _; simp [failedIn]
  | cons t rest ih =>
    intro d f hndt hpe
    have ht : pairExists d article.id t.id = pairExists db₀ article.id t.id :=
      hpe t (by simp)
    have hndr : (rest.map (fun t => t.id)).Nodup := by
      rw [List.map_cons, List.nodup_cons] at hndt
      exact hndt.2
    have htid : t.id ∉ rest.map (fun t => t.id) := by
      rw [List.map_cons, List.nodup_cons] at hndt
      exact hndt.1
    rw [List.foldl_cons, assessTopicStep]
    by_cases hex : pairExists d article.id t.id
    · rw [if_pos hex]
      rw [ih d f hndr (fun t' ht' => hpe t' (by simp [ht']))]
      have hdb : pairExists db₀ article.id t.id = true := ht ▸ hex
      simp [failedIn, List.any_cons, hdb]
    · rw [if_neg hex]
      have hdb : pairExists db₀ article.id t.id = false := by
        rw [← ht]; exact Bool.eq_false_iff.mpr hex
      cases hllm : llm t (truncatedText config article) with
      | none =>
        rw [ih d true hndr (fun t' ht' => hpe t' (by simp [ht']))]
        simp [failedIn, List.any_cons, hdb, hllm]
      | some result =>
        rw [ih (insertAssessment d article.id t.id result config now) f hndr
          ?_]
        · simp [failedIn, List.any_cons, hdb, hllm]
        · intro t' ht'
          rw [pairExists_insertAssessment]
          have hne2 : (t.id == t'.id) = false := by
            simp only [beq_eq_false_iff_ne, ne_eq]
            intro heq
            exact htid (List.mem_map.mpr ⟨t', ht', heq.symm⟩)
          simp only [hne2, Bool.and_false, Bool.or_false]
          exact hpe t' (by simp [ht'])

theorem assessArticle_find_frame
    (llm : TopicRow → String → Option AssessmentOutput) (config : AppConfig)
    (now : Int) (topics : List TopicRow) (d : DB) (b : ArticleRow) (i : Nat)
    (hb : b.id ≠ i) :
    findArticle (assessArticle llm config now topics d b) i =
      findArticle d i := by
  rw [assessArticle]
  by_cases hfl : (topics.foldl (assessTopicStep llm config now b)
      (d, false)).2
  · rw [if_pos hfl]
    show (updateArticles _ b.id _).find? (fun r => r.id == i) = _
    rw [find?_update_other
      (topics.foldl (assessTopicStep llm config now b) (d, false)).1.articles
      i b.id hb
      (fun r => { r with
        assessmentRetryCount := b.assessmentRetryCount + 1
        status := if 3 ≤ b.assessmentRetryCount + 1 then "failed"
                  else "pending_assessment" })
      (fun r => rfl)]
    rw [topicFold_articles llm config now b topics (d, false)]
    rfl
  · rw [if_neg hfl]
    show (updateArticles _ b.id _).find? (fun r => r.id == i) = _
    rw [find?_update_other
      (topics.foldl (assessTopicStep llm config now b) (d, false)).1.articles
      i b.id hb
      (fun r => { r with status := "assessed" })
      (fun r => rfl)]
    rw [topicFold_articles llm config now b topics (d, false)]
    rfl

theorem assessArticle_pairExists_frame
    (llm : TopicRow → String → Option AssessmentOutput) (config : AppConfig)
    (now : Int) (topics : List TopicRow) (d : DB) (b : ArticleRow)
    (aid tid : Nat) (hb : b.id ≠ aid) :
    pairExists (assessArticle llm config now topics d b) aid tid =
      pairExists d aid tid := by
  rw [assessArticle]
  by_cases hfl : (topics.foldl (assessTopicStep llm config now b)
      (d, false)).2
  · rw [if_pos hfl]
    show pairExists { (topics.foldl (assessTopicStep llm config now b)
      (d, false)).1 with articles := _ } aid tid = _
    rw [show ∀ (x : DB) (l : List ArticleRow),
        pairExists { x with articles := l } aid tid = pairExists x aid tid
      from fun x l => rfl]
    exact topicFold_pairExists_frame llm config now b aid tid hb topics
      (d, false)
  · rw [if_neg hfl]
    show pairExists { (topics.foldl (assessTopicStep llm config now b)
      (d, false)).1 with articles := _ } aid tid = _
    rw [show ∀ (x : DB) (l : List ArticleRow),
        pairExists { x with articles := l } aid tid = pairExists x aid tid
      from fun x l => rfl]
    exact topicFold_pairExists_frame llm config now b aid tid hb topics
      (d, false)

theorem articleFold_frames
    (llm : TopicRow → String → Option AssessmentOutput) (config : AppConfig)
    (now : Int) (topics : List TopicRow) (i : Nat) :
    ∀ (items : List ArticleRow) (d : DB), (∀ b ∈ items, b.id ≠ i) →
      findArticle (items.foldl (assessArticle llm config now topics) d) i =
        findArticle d i ∧
      ∀ tid, pairExists
          (items.foldl (assessArticle llm config now topics) d) i tid =
        pairExists d i tid := by
  intro items
  induction items with
  | nil => intro d _; exact ⟨rfl, fun _ => rfl⟩
  | cons b rest ih =>
    intro d h
    have hb : b.id ≠ i := h b (by simp)
    have hrest := ih (assessArticle llm config now topics d b)
      (fun x hx => h x (by simp [hx]))
    refine ⟨?_, ?_⟩
    · rw [List.foldl_cons, hrest.1,
        assessArticle_find_frame llm config now topics d b i hb]
    · intro tid
      rw [List.foldl_cons, hrest.2 tid,
        assessArticle_pairExists_frame llm config now topics d b i tid hb]

/-- Claim C6: assessor whole-article status transition.  For a selected
article, with at least one enabled topic so the topic loop runs, after all
enabled topics are attempted: if at least one (article, topic) call failed
(pair not already assessed and the LLM call failing), the assessment retry
counter increments by exactly one and the status becomes failed exactly when
the new counter reaches 3, otherwise stays pending (pending_assessment); if
every topic call succeeded or was skipped by the existence check, the status
becomes assessed and the counter is unchanged. -/
theorem assess_article_transition (db : DB)
    (llm : TopicRow → String → Option AssessmentOutput) (config : AppConfig)
    (now : Int) (a : ArticleRow)
    (hnd : (db.articles.map (fun r => r.id)).Nodup)
    (hndt : ((activeTopics db).map (fun t => t.id)).Nodup)
    (hsel : a ∈ assessSelection db)
    (hne : (activeTopics db).isEmpty = false) :
    findArticle (assessPendingArticles db llm config now) a.id =
      some (if failedIn db llm config a (activeTopics db) then
        { a with
          assessmentRetryCount := a.assessmentRetryCount + 1
          status := if a.assessmentRetryCount + 1 = 3 then "failed"
                    else "pending_assessment" }
      else { a with status := "assessed" }) := by
  have hpe : (assessSelection db).isEmpty = false := by
    cases hl : assessSelection db with
    | nil => rw [hl] at hsel; simp at hsel
    | cons x xs => rfl
  rw [assessPendingArticles]
  simp only [hpe, hne, Bool.false_eq_true, if_false]
  obtain ⟨l₁, l₂, hsplit⟩ := List.append_of_mem hsel
  have hndSel : ((assessSelection db).map (fun r => r.id)).Nodup :=
    ((List.filter_sublist db.articles).map (fun r => r.id)).nodup hnd
  rw [hsplit] at hndSel
  simp only [List.map_append, List.map_cons, List.nodup_append,
    List.nodup_cons] at hndSel
  have hl₁ : ∀ b ∈ l₁, b.id ≠ a.id := by
    intro b hb heq
    exact hndSel.2.2 (List.mem_map.mpr ⟨b, hb, rfl⟩) (by simp [heq])
  have hl₂ : ∀ b ∈ l₂, b.id ≠ a.id := by
    intro b hb heq
    exact hndSel.2.1.1 (List.mem_map.mpr ⟨b, hb, heq⟩)
  rw [hsplit, List.foldl_append, List.foldl_cons]
  have hpre := articleFold_frames llm config now (activeTopics db) a.id l₁
    db hl₁
  have hsuf := articleFold_frames llm config now (activeTopics db) a.id l₂
    (assessArticle llm config now (activeTopics db)
      (l₁.foldl (assessArticle llm config now (activeTopics db)) db) a) hl₂
  rw [hsuf.1]
  set d₁ := l₁.foldl (assessArticle llm config now (activeTopics db)) db
    with hd₁
  have hbase : findArticle d₁ a.id = some a := by
    rw [hpre.1, findArticle,
      find?_of_mem_nodup db.articles a hnd (List.mem_of_mem_filter hsel)]
  have hflag : ((activeTopics db).foldl
      (assessTopicStep llm config now a) (d₁, false)).2 =
      failedIn db llm config a (activeTopics db) := by
    rw [topicFold_flag llm config now a db (activeTopics db) d₁ false hndt
      (fun t _ => hpre.2 t.id)]
    rw [Bool.false_or]
  have hretry : a.assessmentRetryCount < 3 := by
    have := List.of_mem_filter hsel
    simp only [Bool.and_eq_true, decide_eq_true_eq] at this
    exact this.2
  rw [assessArticle]
  by_cases hfl : failedIn db llm config a (activeTopics db)
  · rw [if_pos (hflag.trans hfl), if_pos hfl]
    show (updateArticles _ a.id _).find? (fun r => r.id == a.id) = _
    have hstep := find?_update_self
      ((activeTopics db).foldl (assessTopicStep llm config now a)
        (d₁, false)).1.articles a.id
      (fun r => { r with
        assessmentRetryCount := a.assessmentRetryCount + 1
        status := if 3 ≤ a.assessmentRetryCount + 1 then "failed"
                  else "pending_assessment" })
      (fun r => rfl)
    rw [hstep]
    have harts := topicFold_articles llm config now a (activeTopics db)
      (d₁, false)
    rw [show (((activeTopics db).foldl (assessTopicStep llm config now a)
        (d₁, false)).1).articles.find? (fun r => r.id == a.id) =
      d₁.articles.find? (fun r => r.id == a.id) by rw [harts]]
    rw [findArticle] at hbase
    rw [hbase]
    simp only [Option.map_some']
    by_cases h3 : a.assessmentRetryCount + 1 = 3
    · rw [if_pos (show 3 ≤ a.assessmentRetryCount + 1 by omega), if_pos h3]
    · rw [if_neg (show ¬ 3 ≤ a.assessmentRetryCount + 1 by omega),
        if_neg h3]
  · rw [if_neg (by rw [hflag]; exact hfl), if_neg hfl]
    show (updateArticles _ a.id _).find? (fun r => r.id == a.id) = _
    have hstep := find?_update_self
      ((activeTopics db).foldl (assessTopicStep llm config now a)
        (d₁, false)).1.articles a.id
      (fun r => { r with status := "assessed" })
      (fun r => rfl)
    rw [hstep]
    have harts := topicFold_articles llm config now a (activeTopics db)
      (d₁, false)
    rw [show (((activeTopics db).foldl (assessTopicStep llm config now a)
        (d₁, false)).1).articles.find? (fun r => r.id == a.id) =
      d₁.articles.find? (fun r => r.id == a.id) by rw [harts]]
    rw [findArticle] at hbase
    rw [hbase]
    rfl

/-- Witness for claim C6 at the concrete store: with an LLM that always
succeeds the article ends assessed; with one that always fails the retry
counter moves from 0 to 1 and the status stays pending_assessment. -/
theorem assess_article_transition_witness :
    findArticle
        (assessPendingArticles assessWitnessDb constantLlm
          digestWitnessConfig 60) 9 =
      some { assessWitnessArticle with status := "assessed" } ∧
    findArticle
        (assessPendingArticles assessWitnessDb failingLlm
          digestWitnessConfig 60) 9 =
      some { assessWitnessArticle with
        assessmentRetryCount := 1
        status := "pending_assessment" } :=
  ⟨assess_article_transition assessWitnessDb constantLlm digestWitnessConfig
      60 assessWitnessArticle (by decide) (by decide)
      (by rw [show assessSelection assessWitnessDb =
            [assessWitnessArticle] from rfl]
          exact List.mem_cons_self _ _)
      rfl,
   assess_article_transition assessWitnessDb failingLlm digestWitnessConfig
      60 assessWitnessArticle (by decide) (by decide)
      (by rw [show assessSelection assessWitnessDb =
            [assessWitnessArticle] from rfl]
          exact List.mem_cons_self _ _)
      rfl⟩

-- ======================================================================
-- Claim C10: the empty guid as a single shared dedup key
-- ======================================================================

/-- Claim C10: every polled item with neither an item id nor a link
normalizes to the empty guid, so all such items from all feeds share one
deduplication key.  Starting from a store with no empty-guid article, running
the Deduplicator over two batches (any two feeds) each containing such an
item leaves exactly one empty-guid article; and once one is stored, a batch
of only empty-guid items inserts nothing and counts every item skipped. -/
theorem empty_guid_single_key (it : RawRssItem) (db db₂ : DB)
    (feedId₁ feedId₂ : Nat) (b₁ b₂ : List ParsedRssItem) :
    (it.guid = none → it.link = none → (normalizeItem it).guid = "") ∧
    (guidCount db "" = 0 → "" ∈ b₁.map (fun x => x.guid) →
      "" ∈ b₂.map (fun x => x.guid) →
      guidCount
        (deduplicateAndStore (deduplicateAndStore db feedId₁ b₁).1 feedId₂
          b₂).1 "" = 1) ∧
    (guidCount db₂ "" = 1 → (∀ x ∈ b₂, x.guid = "") →
      deduplicateAndStore db₂ feedId₂ b₂ =
        (db₂, { newCount := 0, skippedCount := b₂.length })) := by
  refine ⟨?_, ?_, ?_⟩
  · intro hg hl
    rw [normalizeItem]
    simp [hg, hl]
  · intro h0 m₁ m₂
    have h1 : guidCount (deduplicateAndStore db feedId₁ b₁).1 "" = 1 := by
      rw [deduplicateAndStore]
      exact dedup_absent_inserted_once feedId₁ "" b₁ db _ h0 m₁
    rw [deduplicateAndStore]
    rw [dedup_count_preserved feedId₂ "" b₂ _ _ (by omega)]
    exact h1
  · intro h1 hall
    have hex : ∀ x ∈ b₂, guidExists db₂ x.guid = true := by
      intro x hx
      rw [hall x hx]
      by_cases he : guidExists db₂ ""
      · exact he
      · exact absurd ((guidExists_false_iff db₂ "").mp
          (Bool.eq_false_iff.mpr he)) (by omega)
    rw [deduplicateAndStore, dedup_all_present feedId₂ b₂ db₂ _ hex]
    simp

/-- Witness for claim C10 at concrete inputs: the no-id no-link item
normalizes to the empty guid, two one-item batches from two feeds leave one
empty-guid row, and a later all-empty-guid batch is fully skipped. -/
theorem empty_guid_single_key_witness :
    (normalizeItem emptyRawItem).guid = "" ∧
    guidCount
      (deduplicateAndStore
        (deduplicateAndStore emptyDb 1 [normalizeItem emptyRawItem]).1 2
        [normalizeItem emptyRawItem]).1 "" = 1 ∧
    deduplicateAndStore emptyGuidDb 2 [normalizeItem emptyRawItem] =
      (emptyGuidDb, { newCount := 0, skippedCount := 1 }) := by
  have h := empty_guid_single_key emptyRawItem emptyDb emptyGuidDb 1 2
    [normalizeItem emptyRawItem] [normalizeItem emptyRawItem]
  exact ⟨h.1 rfl rfl, h.2.1 (by decide) (by decide) (by decide),
    h.2.2 (by decide) (by decide)⟩

end HorizonScan

